import Mathlib

/-!
Verification of the Board Synchronization Core of the kanban task-manager
web application.  The definitions below are a shallow embedding of the
TypeScript source: the `TaskManager` component (drag handlers, board
loading, task creation), the `TaskDetailDrawer` (subtask mutators, tag
serialization) and the subtask readers in `TaskCard` and `ListView`.
The file is organised as definitions first, then theorems.
-/

namespace Kanban

/-! ## JSON tag encoding

`TaskDetailDrawer.handleSave` stores tags as `JSON.stringify(tags)` where
`tags : string[]`; `loadBoardData` reads them back with
`task.tags ? JSON.parse(task.tags) : []`.  We embed `JSON.stringify` and
`JSON.parse` restricted to the reachable value domain (arrays of strings,
as produced by the writers); inputs outside that domain make the decoder
fail, which models the `JSON.parse` exception escaping to the enclosing
`try`/`catch` of `loadBoardData`. -/

/-- Hexadecimal digit character (lowercase), as produced by
`JSON.stringify` for `\u00XX` control-character escapes. -/
def hexDigitChar (n : Nat) : Char :=
  if n < 10 then Char.ofNat (48 + n) else Char.ofNat (87 + n)

/-- Value of a hexadecimal digit character, as accepted by `JSON.parse`
in a `\uXXXX` escape. -/
def fromHexDigit (c : Char) : Option Nat :=
  if '0' ≤ c ∧ c ≤ '9' then some (c.toNat - 48)
  else if 'a' ≤ c ∧ c ≤ 'f' then some (c.toNat - 87)
  else if 'A' ≤ c ∧ c ≤ 'F' then some (c.toNat - 55)
  else none

/-- `JSON.stringify`'s escaping of one character inside a string literal:
`"` and `\` get a backslash escape, the named control characters get
their two-character escapes, the remaining control characters get
`\u00XX`, and every other character is emitted verbatim. -/
def escapeChar (c : Char) : List Char :=
  if c = '"' then ['\\', '"']
  else if c = '\\' then ['\\', '\\']
  else if c = '\u0008' then ['\\', 'b']
  else if c = '\t' then ['\\', 't']
  else if c = '\n' then ['\\', 'n']
  else if c = '\u000c' then ['\\', 'f']
  else if c = '\r' then ['\\', 'r']
  else if c.toNat < 32 then
    ['\\', 'u', '0', '0', hexDigitChar (c.toNat / 16), hexDigitChar (c.toNat % 16)]
  else [c]

/-- Escape every character of a string body. -/
def escList : List Char → List Char
  | [] => []
  | c :: cs => escapeChar c ++ escList cs

/-- A JSON string literal: quote, escaped body, quote. -/
def encodeStringC (s : String) : List Char :=
  '"' :: (escList s.data ++ ['"'])

/-- The characters following the first element of a nonempty encoded
array: for each further element a comma and its string literal, then the
closing bracket. -/
def encTail : List String → List Char
  | [] => [']']
  | t :: ts => ',' :: (encodeStringC t ++ encTail ts)

/-- `JSON.stringify` on an array of strings (no whitespace, elements
comma-separated), as called in `TaskDetailDrawer.handleSave`
(`tags: JSON.stringify(tags)`). -/
def encodeTags : List String → String
  | [] => "[]"
  | t :: ts => String.mk ('[' :: (encodeStringC t ++ encTail ts))

/-- Parser state for `JSON.parse` restricted to arrays of strings:
before the opening bracket, after it, inside a string body, after a
backslash, inside a `\uXXXX` escape (`k` digits left, `val` accumulated),
after a closing quote (expecting `,` or `]`), after a comma (expecting
the next string), and after the final bracket. -/
inductive PState where
  | start : PState
  | afterOpen : PState
  | str (cur : List Char) (acc : List String) : PState
  | esc (cur : List Char) (acc : List String) : PState
  | hex (k : Nat) (val : Nat) (cur : List Char) (acc : List String) : PState
  | delim (acc : List String) : PState
  | expectQuote (acc : List String) : PState
  | done (res : List String) : PState
  deriving DecidableEq

/-- One-character-at-a-time run of the string-array parser.  Unescaped
control characters, unknown escapes, surrogate code points and trailing
garbage are rejected, as by `JSON.parse`. -/
def runP : List Char → PState → Option (List String)
  | [], st => match st with | .done res => some res | _ => none
  | c :: rest, st =>
    match st with
    | .start => if c = '[' then runP rest .afterOpen else none
    | .afterOpen =>
      if c = '"' then runP rest (.str [] [])
      else if c = ']' then runP rest (.done []) else none
    | .str cur acc =>
      if c = '"' then runP rest (.delim (String.mk cur.reverse :: acc))
      else if c = '\\' then runP rest (.esc cur acc)
      else if c.toNat < 32 then none
      else runP rest (.str (c :: cur) acc)
    | .esc cur acc =>
      if c = '"' then runP rest (.str ('"' :: cur) acc)
      else if c = '\\' then runP rest (.str ('\\' :: cur) acc)
      else if c = '/' then runP rest (.str ('/' :: cur) acc)
      else if c = 'b' then runP rest (.str ('\u0008' :: cur) acc)
      else if c = 't' then runP rest (.str ('\t' :: cur) acc)
      else if c = 'n' then runP rest (.str ('\n' :: cur) acc)
      else if c = 'f' then runP rest (.str ('\u000c' :: cur) acc)
      else if c = 'r' then runP rest (.str ('\r' :: cur) acc)
      else if c = 'u' then runP rest (.hex 4 0 cur acc)
      else none
    | .hex k val cur acc =>
      match fromHexDigit c with
      | some d =>
        if k = 1 then
          if val * 16 + d < 55296 then runP rest (.str (Char.ofNat (val * 16 + d) :: cur) acc)
          else none
        else runP rest (.hex (k - 1) (val * 16 + d) cur acc)
      | none => none
    | .delim acc =>
      if c = ',' then runP rest (.expectQuote acc)
      else if c = ']' then runP rest (.done acc.reverse)
      else none
    | .expectQuote acc => if c = '"' then runP rest (.str [] acc) else none
    | .done _ => none

/-- `JSON.parse` on the value domain stored by the application: a JSON
array of strings (the empty array `[]` or `["…",…]`).  Anything else —
in particular any malformed encoding — fails, modelling the exception
`JSON.parse` throws inside `loadBoardData`. -/
def parseJsonStringArray (s : String) : Option (List String) :=
  runP s.data PState.start

/-! ## Data model

The record shapes of the `User`, `Board`, `Column`, `Task` and `Subtask`
interfaces shared by the components.  Positions are the natural numbers
the application itself writes (list lengths). -/

/-- Authenticated user. -/
structure User where
  id : String
  email : String
  displayName : Option String
  deriving DecidableEq

/-- Board record. -/
structure Board where
  id : String
  name : String
  description : Option String
  userId : String
  isShared : Bool
  isArchived : Bool
  deriving DecidableEq

/-- Column record. -/
structure Column where
  id : String
  name : String
  boardId : String
  position : Nat
  color : String
  deriving DecidableEq

/-- The `completed` field of a subtask as stored at the database
interface: `addSubtask` writes the boolean `false`, `toggleSubtask`
writes the integer `1` or `0`, so a stored value carries either
encoding. -/
inductive CompletedValue where
  | bool (b : Bool) : CompletedValue
  | num (n : Int) : CompletedValue
  deriving DecidableEq

/-- JavaScript `Number(…)` coercion on the two stored encodings. -/
def jsNumber : CompletedValue → Int
  | .bool b => if b then 1 else 0
  | .num n => n

/-- Task record as held in the remote store: `tags` is the encoded
string, possibly absent. -/
structure StoredTask where
  id : String
  title : String
  description : Option String
  columnId : String
  boardId : String
  userId : String
  position : Nat
  dueDate : Option String
  completed : Bool
  tags : Option String
  createdAt : String
  updatedAt : String
  deriving DecidableEq

/-- Task record in the Board State Cache: `loadBoardData` replaces the
`tags` field with the decoded string list. -/
structure Task where
  id : String
  title : String
  description : Option String
  columnId : String
  boardId : String
  userId : String
  position : Nat
  dueDate : Option String
  completed : Bool
  tags : List String
  createdAt : String
  updatedAt : String
  deriving DecidableEq

/-- Subtask record; same shape in store and cache (`loadBoardData`
copies subtasks unchanged). -/
structure Subtask where
  id : String
  title : String
  taskId : String
  completed : CompletedValue
  position : Nat
  deriving DecidableEq

/-- Remote store contents: durable truth for all boards. -/
structure Store where
  columns : List Column
  tasks : List StoredTask
  subtasks : List Subtask
  deriving DecidableEq

/-- The Board State Cache: the three `useState` collections of
`TaskManager` (`columns`, `tasks`, `subtasks`). -/
structure Cache where
  columns : List Column
  tasks : List Task
  subtasks : List Subtask
  deriving DecidableEq

/-- A `toast(…)` notification; `destructive` is the error variant. -/
structure Toast where
  title : String
  description : String
  destructive : Bool
  deriving DecidableEq

/-- The toast of `loadBoardData`'s `catch` branch. -/
def loadingErrorToast : Toast :=
  ⟨"Loading Error", "Failed to load board data", true⟩

/-- The toast of `handleDragEnd`'s `catch` branch. -/
def updateErrorToast : Toast :=
  ⟨"Update Error", "Failed to move task", true⟩

/-- Environment outcomes for one controller run: whether the durable
write succeeds and whether each of the three reconciliation reads
succeeds. -/
structure Oracle where
  writeOk : Bool
  colsOk : Bool
  tasksOk : Bool
  subsOk : Bool
  deriving DecidableEq

/-! ## Remote store queries -/

/-- Insertion into a list sorted ascending by `pos`. -/
def insertByPos {α : Type} (pos : α → Nat) (x : α) : List α → List α
  | [] => [x]
  | y :: ys => if pos x ≤ pos y then x :: y :: ys else y :: insertByPos pos x ys

/-- `orderBy: { position: 'asc' }` of the store's list queries
(insertion sort; which stable order ties take is unobservable here). -/
def sortByPos {α : Type} (pos : α → Nat) : List α → List α
  | [] => []
  | x :: xs => insertByPos pos x (sortByPos pos xs)

/-- `blink.db.columns.list({ where: { boardId }, orderBy: { position: 'asc' } })`. -/
def listColumns (store : Store) (boardId : String) : List Column :=
  sortByPos Column.position (store.columns.filter (fun c => c.boardId == boardId))

/-- `blink.db.tasks.list({ where: { boardId }, orderBy: { position: 'asc' } })`. -/
def listTasks (store : Store) (boardId : String) : List StoredTask :=
  sortByPos StoredTask.position (store.tasks.filter (fun t => t.boardId == boardId))

/-- `blink.db.subtasks.list({ orderBy: { position: 'asc' } })` — the
source has no `where` clause here, so the query is not restricted to the
board. -/
def listSubtasks (store : Store) : List Subtask :=
  sortByPos Subtask.position store.subtasks

/-! ## Reconciliation Loader -/

/-- The tag-field read path (`task.tags ? JSON.parse(task.tags) : []`):
an absent or empty (falsy) encoding yields the empty list, a present
nonempty encoding goes through `JSON.parse`, whose failure propagates. -/
def decodeTagsField (o : Option String) : Option (List String) :=
  match o with
  | none => some []
  | some s => if s = "" then some [] else parseJsonStringArray s

/-- `{ ...task, tags: task.tags ? JSON.parse(task.tags) : [] }`: the
stored record with the tag field decoded. -/
def decodeTask (t : StoredTask) : Option Task :=
  (decodeTagsField t.tags).map (fun tags =>
    ⟨t.id, t.title, t.description, t.columnId, t.boardId, t.userId,
      t.position, t.dueDate, t.completed, tags, t.createdAt, t.updatedAt⟩)

/-- `boardTasks.map(…)` with the tag decode: the first malformed
encoding makes the whole mapping throw. -/
def decodeTasks : List StoredTask → Option (List Task)
  | [] => some []
  | t :: ts =>
    match decodeTask t, decodeTasks ts with
    | some t2, some ts2 => some (t2 :: ts2)
    | _, _ => none

/-- `loadBoardData(boardId)`: three reads under `Promise.all`; if any
read fails the `catch` surfaces the destructive "Loading Error" toast
and no state is replaced.  On read success `setColumns` runs first, then
`setTasks` whose argument decodes the tags — a decode failure escapes to
the same `catch` after the columns were already replaced — then
`setSubtasks`. -/
def loadBoardData (o : Oracle) (store : Store) (boardId : String) (cache : Cache) :
    Cache × List Toast :=
  if o.colsOk && o.tasksOk && o.subsOk then
    let cache1 : Cache := { cache with columns := listColumns store boardId }
    match decodeTasks (listTasks store boardId) with
    | some ts => ({ cache1 with tasks := ts, subtasks := listSubtasks store }, [])
    | none => (cache1, [loadingErrorToast])
  else (cache, [loadingErrorToast])

/-! ## Drag/Reorder Controller -/

/-- The durable write of `handleDragEnd`:
`blink.db.tasks.update(activeId, { columnId, updatedAt })`. -/
structure TaskUpdateWrite where
  taskId : String
  columnId : String
  updatedAt : String
  deriving DecidableEq

/-- Resolution of the hovered target to a column: the target is a column
itself, or a task whose current column is used
(`columns.find(col => col.id === overId) || columns.find(col => tasks.find(task => task.id === overId)?.columnId === col.id)`). -/
def overColumnOf (cache : Cache) (overId : String) : Option Column :=
  (cache.columns.find? (fun col => col.id == overId)).orElse (fun _ =>
    cache.columns.find? (fun col =>
      match cache.tasks.find? (fun t => t.id == overId) with
      | some t => t.columnId == col.id
      | none => false))

/-- `handleDragOver`: while dragging, if the hovered target resolves to
a column different from the active task's current column, mutate the
cached task's `columnId`; the handler performs no store calls, so its
write list is always empty. -/
def handleDragOver (cache : Cache) (activeId : String) (over : Option String) :
    Cache × List TaskUpdateWrite :=
  match over with
  | none => (cache, [])
  | some overId =>
    match cache.tasks.find? (fun t => t.id == activeId) with
    | none => (cache, [])
    | some activeTask =>
      match overColumnOf cache overId with
      | none => (cache, [])
      | some overColumn =>
        if activeTask.columnId == overColumn.id then (cache, [])
        else
          ({ cache with tasks := cache.tasks.map (fun t =>
              if t.id == activeId then { t with columnId := overColumn.id } else t) }, [])

/-- `blink.db.tasks.update` applied to the store: update-by-id of
`columnId` and `updatedAt`. -/
def applyTaskUpdate (store : Store) (w : TaskUpdateWrite) : Store :=
  { store with tasks := store.tasks.map (fun t =>
      if t.id == w.taskId then { t with columnId := w.columnId, updatedAt := w.updatedAt }
      else t) }

/-- Result of one `handleDragEnd` run: final cache and store, the
durable writes issued (attempted), and the toasts surfaced. -/
structure DragEndResult where
  cache : Cache
  store : Store
  writes : List TaskUpdateWrite
  toasts : List Toast
  deriving DecidableEq

/-- `handleDragEnd`: with a drop target and a found active task it
always issues the update write (columnId as currently cached, fresh
`updatedAt`); on write success the store is updated and `loadBoardData`
re-fetches; on write failure the "Update Error" toast appears and
`loadBoardData` re-fetches the unchanged store.  Either reload needs
`currentBoard` to be set. -/
def handleDragEnd (o : Oracle) (store : Store) (currentBoard : Option Board)
    (cache : Cache) (activeId : String) (over : Option String) (now : String) :
    DragEndResult :=
  match over with
  | none => ⟨cache, store, [], []⟩
  | some _ =>
    match cache.tasks.find? (fun t => t.id == activeId) with
    | none => ⟨cache, store, [], []⟩
    | some activeTask =>
      let w : TaskUpdateWrite := ⟨activeId, activeTask.columnId, now⟩
      if o.writeOk then
        let store2 := applyTaskUpdate store w
        match currentBoard with
        | some b =>
          let r := loadBoardData o store2 b.id cache
          ⟨r.1, store2, [w], r.2⟩
        | none => ⟨cache, store2, [w], []⟩
      else
        match currentBoard with
        | some b =>
          let r := loadBoardData o store b.id cache
          ⟨r.1, store, [w], updateErrorToast :: r.2⟩
        | none => ⟨cache, store, [w], [updateErrorToast]⟩

/-! ## Task/Subtask Mutators -/

/-- The durable write of `createTask`: exactly the fields the source
object literal carries. -/
structure TaskCreateWrite where
  id : String
  title : String
  columnId : String
  boardId : String
  userId : String
  position : Nat
  completed : Bool
  tags : String
  deriving DecidableEq

/-- JavaScript `a || b` on an optional string (the empty string is
falsy). -/
def jsOrString (a : Option String) (b : Option String) : Option String :=
  match a with
  | some s => if s = "" then b else some s
  | none => b

/-- `createTask(title, columnId?)`: requires a signed-in user and a
current board; the target column is `columnId || columns[0]?.id` and a
falsy target aborts; the new task's `position` is the count of cached
tasks already in the target column, `completed` is `false` and `tags`
the literal `'[]'`.  We model the durable write it issues; the
subsequent reload is `loadBoardData`. -/
def createTask (user : Option User) (currentBoard : Option Board) (cache : Cache)
    (title : String) (columnId : Option String) (newId : String) :
    Option TaskCreateWrite :=
  match user, currentBoard with
  | some u, some b =>
    match jsOrString columnId ((cache.columns.head?).map (fun c => c.id)) with
    | none => none
    | some target =>
      if target = "" then none
      else
        some ⟨newId, title, target, b.id, u.id,
          (cache.tasks.filter (fun t => t.columnId == target)).length, false, "[]"⟩
  | _, _ => none

/-- Strip leading whitespace characters. -/
def dropLeadingWs : List Char → List Char
  | [] => []
  | c :: cs => if c.isWhitespace then dropLeadingWs cs else c :: cs

/-- JavaScript `String.prototype.trim`: strip whitespace from both
ends (kernel-evaluable model of the `.trim()` calls). -/
def jsTrim (s : String) : String :=
  String.mk ((dropLeadingWs ((dropLeadingWs s.data).reverse)).reverse)

/-- The subtasks prop handed to `TaskDetailDrawer` for the selected task
(`subtasks.filter(st => st.taskId === selectedTask.id)` in TaskManager). -/
def drawerSubtasksFor (cache : Cache) (taskId : String) : List Subtask :=
  cache.subtasks.filter (fun st => st.taskId == taskId)

/-- The durable write of `addSubtask`. -/
structure SubtaskCreateWrite where
  id : String
  title : String
  taskId : String
  completed : CompletedValue
  position : Nat
  deriving DecidableEq

/-- `addSubtask` of TaskDetailDrawer: no-op on a blank title, otherwise
creates with the trimmed title, `completed: false` (boolean encoding)
and `position` equal to the length of the drawer's task-filtered subtask
list. -/
def addSubtask (drawerSubtasks : List Subtask) (taskId : String) (title : String)
    (newId : String) : Option SubtaskCreateWrite :=
  if jsTrim title = "" then none
  else some ⟨newId, jsTrim title, taskId, CompletedValue.bool false, drawerSubtasks.length⟩

/-- The durable write of `toggleSubtask`. -/
structure SubtaskUpdateWrite where
  subtaskId : String
  completed : CompletedValue
  deriving DecidableEq

/-- `toggleSubtask(subtaskId, completed)` persists
`completed: completed ? 1 : 0` (integer encoding). -/
def toggleSubtask (subtaskId : String) (completed : Bool) : SubtaskUpdateWrite :=
  ⟨subtaskId, CompletedValue.num (if completed then 1 else 0)⟩

/-! ## Subtask readers -/

/-- TaskCard badge numerator:
`subtasks.filter(st => Number(st.completed) > 0).length`. -/
def completedSubtasksCount (subtasks : List Subtask) : Nat :=
  (subtasks.filter (fun st => jsNumber st.completed > 0)).length

/-- TaskDetailDrawer header count over the drawer's subtask list
(`subtasks.filter(st => Number(st.completed) > 0).length`). -/
def drawerCompletedCount (subtasks : List Subtask) : Nat :=
  (subtasks.filter (fun st => jsNumber st.completed > 0)).length

/-- TaskDetailDrawer checkbox state: `Number(subtask.completed) > 0`. -/
def subtaskCheckboxChecked (st : Subtask) : Bool :=
  jsNumber st.completed > 0

/-- `ListView.getSubtaskProgress(taskId)`: completed and total counts of
the task's subtasks. -/
def getSubtaskProgress (subtasks : List Subtask) (taskId : String) : Nat × Nat :=
  let taskSubtasks := subtasks.filter (fun st => st.taskId == taskId)
  ((taskSubtasks.filter (fun st => jsNumber st.completed > 0)).length, taskSubtasks.length)

/-! ## Assignment projections -/

/-- The task-to-column assignment of a cached task list. -/
def taskAssignment (tasks : List Task) : List (String × String) :=
  tasks.map (fun u => (u.id, u.columnId))

/-- The task-to-column assignment of a stored task list. -/
def storedAssignment (tasks : List StoredTask) : List (String × String) :=
  tasks.map (fun u => (u.id, u.columnId))

/-- The remote store's authoritative assignment for one board. -/
def boardAssignment (store : Store) (boardId : String) : List (String × String) :=
  storedAssignment (store.tasks.filter (fun u => u.boardId == boardId))

/-! ## Concrete fixtures

Small concrete records used to instantiate the theorems below on the
scenarios named by the design document. -/

/-- Fixture board `b1`. -/
def bW : Board := ⟨"b1", "My Tasks", none, "u1", false, false⟩

/-- Fixture signed-in user. -/
def uW : User := ⟨"u1", "u1@example.com", none⟩

/-- Fixture column `col_todo` of board `b1`. -/
def colTodo : Column := ⟨"col_todo", "To Do", "b1", 0, "#ef4444"⟩

/-- Fixture column `col_done` of board `b1`. -/
def colDone : Column := ⟨"col_done", "Done", "b1", 2, "#10b981"⟩

/-- Fixture cached task `t1`, parameterised by its column. -/
def tW (col : String) : Task :=
  ⟨"t1", "Task one", none, col, "b1", "u1", 0, none, false, [], "c0", "c0"⟩

/-- Fixture stored task `t1` with the empty encoded tag list. -/
def stW (col : String) : StoredTask :=
  ⟨"t1", "Task one", none, col, "b1", "u1", 0, none, false, some "[]", "c0", "c0"⟩

/-- Fixture cache holding both columns and `t1` in the given column. -/
def cacheW (col : String) : Cache := ⟨[colTodo, colDone], [tW col], []⟩

/-- Fixture store with `t1` in `col_todo`. -/
def storeW : Store := ⟨[colTodo, colDone], [stW "col_todo"], []⟩

/-- An empty cache. -/
def cacheEmpty : Cache := ⟨[], [], []⟩

/-- Fixture stored task whose tag encoding is malformed. -/
def stBad : StoredTask :=
  ⟨"t1", "Task one", none, "col_todo", "b1", "u1", 0, none, false, some "oops", "c0", "c0"⟩

/-- Fixture store whose only board-`b1` task has a malformed tag
encoding. -/
def storeBad : Store := ⟨[colTodo], [stBad], []⟩

/-- Fixture column of a second board `b2`. -/
def colB2 : Column := ⟨"col_b2", "Other", "b2", 0, "#3b82f6"⟩

/-- Fixture stored task of board `b2`. -/
def stB2 : StoredTask :=
  ⟨"t2", "Other task", none, "col_b2", "b2", "u1", 0, none, false, none, "c0", "c0"⟩

/-- Fixture subtask attached to board `b2`'s task `t2`. -/
def subB2 : Subtask := ⟨"s2", "Other subtask", "t2", CompletedValue.bool false, 0⟩

/-- Fixture store holding two boards, with a subtask under board `b2`. -/
def storeC8 : Store := ⟨[colTodo, colB2], [stW "col_todo", stB2], [subB2]⟩

/-- Fixture subtasks of task `t1` at positions 0 and 1. -/
def sub0 : Subtask := ⟨"s0", "First", "t1", CompletedValue.num 1, 0⟩

/-- Second fixture subtask of task `t1`. -/
def sub1 : Subtask := ⟨"s1", "Second", "t1", CompletedValue.bool false, 1⟩

/-- Fixture cache with task `t1` and its two subtasks. -/
def cacheC6 : Cache := ⟨[colTodo, colDone], [tW "col_todo"], [sub0, sub1]⟩

/-! ## Theorems about the JSON tag encoding -/

theorem string_mk_data (s : String) : String.mk s.data = s := by
  cases s
  rfl

theorem fromHexDigit_hexDigitChar {m : Nat} (h : m < 16) :
    fromHexDigit (hexDigitChar m) = some m := by
  interval_cases m <;> decide

theorem runP_str_plain {c : Char} {rest cur : List Char} {acc : List String}
    (h1 : ¬ c = '"') (h2 : ¬ c = '\\') (h8 : ¬ c.toNat < 32) :
    runP (c :: rest) (.str cur acc) = runP rest (.str (c :: cur) acc) := by
  show (if c = '"' then runP rest (.delim (String.mk cur.reverse :: acc))
      else if c = '\\' then runP rest (.esc cur acc)
      else if c.toNat < 32 then none
      else runP rest (.str (c :: cur) acc)) = _
  rw [if_neg h1, if_neg h2, if_neg h8]

theorem runP_hex_step {c : Char} {d k val : Nat} {rest cur : List Char} {acc : List String}
    (hc : fromHexDigit c = some d) (hk : ¬ k = 1) :
    runP (c :: rest) (.hex k val cur acc) =
      runP rest (.hex (k - 1) (val * 16 + d) cur acc) := by
  show (match fromHexDigit c with
    | some d =>
      if k = 1 then
        if val * 16 + d < 55296 then runP rest (.str (Char.ofNat (val * 16 + d) :: cur) acc)
        else none
      else runP rest (.hex (k - 1) (val * 16 + d) cur acc)
    | none => none) = _
  rw [hc]
  exact if_neg hk

theorem runP_hex_last {c : Char} {d val : Nat} {rest cur : List Char} {acc : List String}
    (hc : fromHexDigit c = some d) (hlt : val * 16 + d < 55296) :
    runP (c :: rest) (.hex 1 val cur acc) =
      runP rest (.str (Char.ofNat (val * 16 + d) :: cur) acc) := by
  show (match fromHexDigit c with
    | some d =>
      if (1 : Nat) = 1 then
        if val * 16 + d < 55296 then runP rest (.str (Char.ofNat (val * 16 + d) :: cur) acc)
        else none
      else runP rest (.hex (1 - 1) (val * 16 + d) cur acc)
    | none => none) = _
  rw [hc]
  simp [hlt]

theorem runP_escapeChar (c : Char) (rest cur : List Char) (acc : List String) :
    runP (escapeChar c ++ rest) (.str cur acc) = runP rest (.str (c :: cur) acc) := by
  by_cases h1 : c = '"'
  · subst h1; rfl
  by_cases h2 : c = '\\'
  · subst h2; rfl
  by_cases h3 : c = '\u0008'
  · subst h3; rfl
  by_cases h4 : c = '\t'
  · subst h4; rfl
  by_cases h5 : c = '\n'
  · subst h5; rfl
  by_cases h6 : c = '\u000c'
  · subst h6; rfl
  by_cases h7 : c = '\r'
  · subst h7; rfl
  by_cases h8 : c.toNat < 32
  · have e : escapeChar c =
        ['\\', 'u', '0', '0', hexDigitChar (c.toNat / 16), hexDigitChar (c.toNat % 16)] := by
      simp only [escapeChar, if_neg h1, if_neg h2, if_neg h3, if_neg h4, if_neg h5,
        if_neg h6, if_neg h7, if_pos h8]
    have e1 := fromHexDigit_hexDigitChar (show c.toNat / 16 < 16 by omega)
    have e2 := fromHexDigit_hexDigitChar (show c.toNat % 16 < 16 by omega)
    rw [e]
    show runP ('\\' :: 'u' :: '0' :: '0' ::
      hexDigitChar (c.toNat / 16) :: hexDigitChar (c.toNat % 16) :: rest) (.str cur acc) = _
    rw [show runP ('\\' :: 'u' :: '0' :: '0' ::
        hexDigitChar (c.toNat / 16) :: hexDigitChar (c.toNat % 16) :: rest) (.str cur acc)
      = runP (hexDigitChar (c.toNat / 16) :: hexDigitChar (c.toNat % 16) :: rest)
          (.hex 2 0 cur acc) from rfl]
    rw [runP_hex_step e1 (by omega)]
    rw [runP_hex_last e2 (by omega)]
    rw [show (0 * 16 + c.toNat / 16) * 16 + c.toNat % 16 = c.toNat by omega]
    rw [Char.ofNat_toNat]
  · have e : escapeChar c = [c] := by
      simp only [escapeChar, if_neg h1, if_neg h2, if_neg h3, if_neg h4, if_neg h5,
        if_neg h6, if_neg h7, if_neg h8]
    rw [e]
    show runP (c :: rest) (.str cur acc) = _
    exact runP_str_plain h1 h2 h8

theorem runP_escList (cs : List Char) : ∀ rest cur acc,
    runP (escList cs ++ rest) (.str cur acc) = runP rest (.str (cs.reverse ++ cur) acc) := by
  induction cs with
  | nil => intro rest cur acc; simp [escList]
  | cons c cs ih =>
    intro rest cur acc
    rw [escList, List.append_assoc, runP_escapeChar, ih]
    simp

theorem runP_encTail (ts : List String) : ∀ acc,
    runP (encTail ts) (.delim acc) = some (acc.reverse ++ ts) := by
  induction ts with
  | nil => intro acc; simp [encTail]; rfl
  | cons t ts ih =>
    intro acc
    show runP (',' :: ('"' :: (escList t.data ++ ['"'])) ++ encTail ts) (.delim acc) = _
    rw [show runP ((',' :: ('"' :: (escList t.data ++ ['"']))) ++ encTail ts) (.delim acc)
      = runP (((escList t.data ++ ['"'])) ++ encTail ts) (.str [] acc) from rfl]
    rw [List.append_assoc, List.singleton_append, runP_escList, List.append_nil]
    rw [show runP ('"' :: encTail ts) (.str t.data.reverse acc)
      = runP (encTail ts) (.delim (String.mk t.data.reverse.reverse :: acc)) from rfl]
    rw [ih]
    simp [string_mk_data]

/-- Round trip at the core: parsing an encoded tag array recovers the
tags exactly. -/
theorem parse_encodeTags (tags : List String) :
    parseJsonStringArray (encodeTags tags) = some tags := by
  cases tags with
  | nil => decide
  | cons t ts =>
    show runP (String.mk ('[' :: ('"' :: (escList t.data ++ ['"']) ++ encTail ts))).data
      PState.start = _
    rw [show (String.mk ('[' :: ('"' :: (escList t.data ++ ['"']) ++ encTail ts))).data
      = '[' :: ('"' :: (escList t.data ++ ['"']) ++ encTail ts) from rfl]
    rw [show runP ('[' :: ('"' :: (escList t.data ++ ['"']) ++ encTail ts)) PState.start
      = runP ((escList t.data ++ ['"']) ++ encTail ts) (.str [] []) from rfl]
    rw [List.append_assoc, List.singleton_append, runP_escList, List.append_nil]
    rw [show runP ('"' :: encTail ts) (.str t.data.reverse [])
      = runP (encTail ts) (.delim [String.mk t.data.reverse.reverse]) from rfl]
    rw [runP_encTail]
    simp [string_mk_data]

theorem encodeTags_ne_empty (tags : List String) : encodeTags tags ≠ "" := by
  cases tags with
  | nil => decide
  | cons t ts =>
    intro h
    have : ('[' :: (encodeStringC t ++ encTail ts)) = ("" : String).data := by
      rw [← h]
      rfl
    simp at this

/-! ## Helper lemmas about queries, decoding and loading -/

theorem insertByPos_perm {α : Type} (pos : α → Nat) (x : α) (l : List α) :
    List.Perm (insertByPos pos x l) (x :: l) := by
  induction l with
  | nil => simp [insertByPos]
  | cons y ys ih =>
    rw [insertByPos]
    split
    · exact List.Perm.refl _
    · exact (ih.cons y).trans (List.Perm.swap x y ys)

theorem sortByPos_perm {α : Type} (pos : α → Nat) (l : List α) :
    List.Perm (sortByPos pos l) l := by
  induction l with
  | nil => simp [sortByPos]
  | cons x xs ih =>
    exact (insertByPos_perm pos x (sortByPos pos xs)).trans (ih.cons x)

theorem decodeTask_fields {t : StoredTask} {u : Task} (h : decodeTask t = some u) :
    u.id = t.id ∧ u.columnId = t.columnId ∧ u.boardId = t.boardId := by
  unfold decodeTask at h
  rw [Option.map_eq_some'] at h
  obtain ⟨tags, _, rfl⟩ := h
  exact ⟨rfl, rfl, rfl⟩

theorem decodeTasks_assignment {l : List StoredTask} : ∀ {ts : List Task},
    decodeTasks l = some ts → taskAssignment ts = storedAssignment l := by
  induction l with
  | nil =>
    intro ts h
    obtain rfl := Option.some.inj h
    rfl
  | cons t l ih =>
    intro ts h
    unfold decodeTasks at h
    cases hd : decodeTask t with
    | none => rw [hd] at h; simp at h
    | some t2 =>
      cases hl : decodeTasks l with
      | none => rw [hd, hl] at h; simp at h
      | some ts2 =>
        rw [hd, hl] at h
        obtain rfl := Option.some.inj h
        obtain ⟨h1, h2, _⟩ := decodeTask_fields hd
        unfold taskAssignment storedAssignment at ih ⊢
        simp only [List.map_cons, h1, h2, ih hl]

theorem loadBoardData_read_fail {o : Oracle} {store : Store} {boardId : String}
    {cache : Cache} (h : (o.colsOk && o.tasksOk && o.subsOk) = false) :
    loadBoardData o store boardId cache = (cache, [loadingErrorToast]) := by
  unfold loadBoardData
  rw [h]
  simp

theorem loadBoardData_ok {o : Oracle} {store : Store} {boardId : String}
    {cache : Cache} {ts : List Task}
    (hc : o.colsOk = true) (ht : o.tasksOk = true) (hs : o.subsOk = true)
    (hdec : decodeTasks (listTasks store boardId) = some ts) :
    loadBoardData o store boardId cache =
      (⟨listColumns store boardId, ts, listSubtasks store⟩, []) := by
  unfold loadBoardData
  rw [hc, ht, hs, hdec]
  simp

theorem loadBoardData_decode_fail {o : Oracle} {store : Store} {boardId : String}
    {cache : Cache}
    (hc : o.colsOk = true) (ht : o.tasksOk = true) (hs : o.subsOk = true)
    (hdec : decodeTasks (listTasks store boardId) = none) :
    loadBoardData o store boardId cache =
      ({ cache with columns := listColumns store boardId }, [loadingErrorToast]) := by
  unfold loadBoardData
  rw [hc, ht, hs, hdec]
  simp

/-! ## Claims -/

/-- C3: the optimistic move is idempotent — while dragging task T whose
cached `columnId` is already C, a further hover event whose target
resolves to column C (directly or via a task in C) leaves the cache
unchanged (and issues no writes). -/
theorem C3_optimistic_idempotent {cache : Cache} {activeId overId : String}
    {t : Task} {c : Column}
    (hfind : cache.tasks.find? (fun u => u.id == activeId) = some t)
    (hover : overColumnOf cache overId = some c)
    (hsame : c.id = t.columnId) :
    handleDragOver cache activeId (some overId) = (cache, []) := by
  simp only [handleDragOver, hfind, hover, hsame, beq_self_eq_true, if_true]

/-- Witness for C3: hovering `t1` (cached in `col_todo`) over the
`col_todo` column container leaves the cache unchanged. -/
theorem C3_witness :
    handleDragOver (cacheW "col_todo") "t1" (some "col_todo") = (cacheW "col_todo", []) :=
  @C3_optimistic_idempotent (cacheW "col_todo") "t1" "col_todo" (tW "col_todo") colTodo
    (by decide) (by decide) (by decide)

/-- C9: frame property of the optimistic move — when a drag-over moves
task T to a different column C, the handler issues no persisted write,
columns and subtasks are untouched, and the task list changes only by
setting T's `columnId` to C (pointwise: T's other fields and every other
task are unchanged). -/
theorem C9_optimistic_frame {cache : Cache} {activeId overId : String}
    {t : Task} {c : Column}
    (hfind : cache.tasks.find? (fun u => u.id == activeId) = some t)
    (hover : overColumnOf cache overId = some c)
    (hdiff : ¬ t.columnId = c.id) :
    (handleDragOver cache activeId (some overId)).2 = []
    ∧ (handleDragOver cache activeId (some overId)).1.columns = cache.columns
    ∧ (handleDragOver cache activeId (some overId)).1.subtasks = cache.subtasks
    ∧ List.Forall₂ (fun old new =>
        (old.id = activeId → new = { old with columnId := c.id })
        ∧ (¬ old.id = activeId → new = old))
      cache.tasks (handleDragOver cache activeId (some overId)).1.tasks := by
  have hres : handleDragOver cache activeId (some overId)
      = ({ cache with tasks := cache.tasks.map (fun u =>
          if u.id == activeId then { u with columnId := c.id } else u) }, []) := by
    simp only [handleDragOver, hfind, hover]
    rw [if_neg (by simp [hdiff] : ¬ ((t.columnId == c.id) = true))]
  rw [hres]
  refine ⟨rfl, rfl, rfl, ?_⟩
  rw [List.forall₂_map_right_iff, List.forall₂_same]
  intro x _
  by_cases hxe : x.id = activeId
  · exact ⟨fun _ => by simp [hxe], fun hne => absurd hxe hne⟩
  · exact ⟨fun he => absurd he hxe, fun _ => by simp [hxe]⟩

/-- Witness for C9: dragging `t1` from `col_todo` over `col_done`
changes only `t1.columnId`, issues no write, and leaves columns and
subtasks untouched. -/
theorem C9_witness :
    (handleDragOver (cacheW "col_todo") "t1" (some "col_done")).2 = []
    ∧ (handleDragOver (cacheW "col_todo") "t1" (some "col_done")).1.columns
        = (cacheW "col_todo").columns
    ∧ (handleDragOver (cacheW "col_todo") "t1" (some "col_done")).1.subtasks
        = (cacheW "col_todo").subtasks
    ∧ List.Forall₂ (fun old new =>
        (old.id = "t1" → new = { old with columnId := colDone.id })
        ∧ (¬ old.id = "t1" → new = old))
      (cacheW "col_todo").tasks
      (handleDragOver (cacheW "col_todo") "t1" (some "col_done")).1.tasks :=
  @C9_optimistic_frame (cacheW "col_todo") "t1" "col_done" (tW "col_todo") colDone
    (by decide) (by decide) (by decide)

/-- C2 counterexample: dropping `t1` back into its original column
`col_todo` (no optimistic move ever fired, the cache still has `t1` in
`col_todo`) nevertheless issues a durable write — `handleDragEnd` always
calls `blink.db.tasks.update` when a drop target exists, refuting "zero
durable writes". -/
theorem C2_counterexample :
    (handleDragEnd ⟨true, true, true, true⟩ storeW (some bW) (cacheW "col_todo")
      "t1" (some "col_todo") "now").writes ≠ [] := by
  decide

/-- C2 amended: a self-drop issues exactly one durable write, rewriting
the task's unchanged `columnId` and refreshing `updatedAt`; only the
optimistic hover stage is a no-op. -/
theorem C2_selfdrop_single_write {o : Oracle} {store : Store}
    {currentBoard : Option Board} {cache : Cache} {activeId overId now : String}
    {t : Task} {c : Column}
    (hfind : cache.tasks.find? (fun u => u.id == activeId) = some t)
    (hover : overColumnOf cache overId = some c)
    (hsame : c.id = t.columnId) :
    (handleDragEnd o store currentBoard cache activeId (some overId) now).writes
      = [⟨activeId, t.columnId, now⟩] := by
  rcases currentBoard with _ | b <;> cases hw : o.writeOk <;>
    simp [handleDragEnd, hfind, hw]

/-- Witness for C2 (amended): the concrete self-drop of `t1` onto
`col_todo` issues exactly the one write carrying the unchanged column. -/
theorem C2_witness :
    (handleDragEnd ⟨true, true, true, true⟩ storeW (some bW) (cacheW "col_todo")
      "t1" (some "col_todo") "now").writes = [⟨"t1", "col_todo", "now"⟩] :=
  @C2_selfdrop_single_write ⟨true, true, true, true⟩ storeW (some bW)
    (cacheW "col_todo") "t1" "col_todo" "now" (tW "col_todo") colTodo
    (by decide) (by decide) (by decide)

/-- C1: convergence of a drop — whether the durable write succeeded or
failed, once the triggered reconciliation load completes (reads succeed
and the board's stored tags decode), the cache's task-to-column
assignment equals the remote store's authoritative assignment for the
board, as multisets of `(taskId, columnId)` pairs. -/
theorem C1_drag_convergence {o : Oracle} {store : Store} {b : Board} {cache : Cache}
    {activeId overId now : String} {t : Task} {ts : List Task}
    (hfind : cache.tasks.find? (fun u => u.id == activeId) = some t)
    (hc : o.colsOk = true) (ht : o.tasksOk = true) (hs : o.subsOk = true)
    (hdec : decodeTasks (listTasks
        (if o.writeOk then applyTaskUpdate store ⟨activeId, t.columnId, now⟩ else store)
        b.id) = some ts) :
    List.Perm
      (taskAssignment
        (handleDragEnd o store (some b) cache activeId (some overId) now).cache.tasks)
      (boardAssignment
        (handleDragEnd o store (some b) cache activeId (some overId) now).store b.id) := by
  cases hw : o.writeOk
  · rw [hw] at hdec
    simp only [Bool.false_eq_true, if_false] at hdec
    simp only [handleDragEnd, hfind, hw, Bool.false_eq_true, if_false]
    rw [loadBoardData_ok hc ht hs hdec]
    rw [decodeTasks_assignment hdec]
    unfold boardAssignment listTasks storedAssignment
    exact (sortByPos_perm _ _).map _
  · rw [hw] at hdec
    simp only [if_true] at hdec
    simp only [handleDragEnd, hfind, hw, if_true]
    rw [loadBoardData_ok hc ht hs hdec]
    rw [decodeTasks_assignment hdec]
    unfold boardAssignment listTasks storedAssignment
    exact (sortByPos_perm _ _).map _

/-- Witness for C1, the design document's rollback scenario: `t1` was
dragged from `col_todo` onto `col_done` (the cache optimistically holds
it in `col_done`), the write fails, and the re-fetch returns `t1` still
in `col_todo`; the final cache assigns `t1` to `col_todo`. -/
theorem C1_witness :
    taskAssignment (handleDragEnd ⟨false, true, true, true⟩ storeW (some bW)
        (cacheW "col_done") "t1" (some "col_done") "t9").cache.tasks
      = [("t1", "col_todo")] := by
  have h := @C1_drag_convergence ⟨false, true, true, true⟩ storeW bW (cacheW "col_done")
    "t1" "col_done" "t9" (tW "col_done") [tW "col_todo"] (by decide) rfl rfl rfl (by decide)
  have h2 : boardAssignment (handleDragEnd ⟨false, true, true, true⟩ storeW (some bW)
      (cacheW "col_done") "t1" (some "col_done") "t9").store bW.id
      = [("t1", "col_todo")] := by decide
  rw [h2] at h
  exact h.eq_singleton

/-- C4 counterexample: with a malformed tag encoding (`"oops"`) in the
board's only task, the reconciliation load does not recover silently —
it surfaces the destructive "Loading Error" toast and leaves the task
collection unreplaced (empty, although the store holds a task), refuting
"decodes to the empty tag set, the load still completes and no
user-visible error notification is surfaced". -/
theorem C4_counterexample :
    (loadBoardData ⟨true, true, true, true⟩ storeBad "b1" cacheEmpty).2
        = [loadingErrorToast]
    ∧ loadingErrorToast.destructive = true
    ∧ (loadBoardData ⟨true, true, true, true⟩ storeBad "b1" cacheEmpty).1.tasks = []
    ∧ storeBad.tasks ≠ [] := by
  decide

/-- C4 amended: a malformed tag encoding aborts the reconciliation load:
the destructive "Loading Error" toast is surfaced and the cached tasks
and subtasks are retained (only the columns, set before decoding, are
replaced); an absent or empty — not malformed — encoding decodes to the
empty tag set. -/
theorem C4_decode_failure {o : Oracle} {store : Store} {boardId : String}
    {cache : Cache}
    (hc : o.colsOk = true) (ht : o.tasksOk = true) (hs : o.subsOk = true)
    (hdec : decodeTasks (listTasks store boardId) = none) :
    loadBoardData o store boardId cache
      = ({ cache with columns := listColumns store boardId }, [loadingErrorToast])
    ∧ decodeTagsField none = some []
    ∧ decodeTagsField (some "") = some [] :=
  ⟨loadBoardData_decode_fail hc ht hs hdec, rfl, rfl⟩

/-- Witness for C4 (amended): the malformed store aborts the load with
the error toast, retaining tasks and subtasks. -/
theorem C4_witness :
    loadBoardData ⟨true, true, true, true⟩ storeBad "b1" cacheEmpty
      = ({ cacheEmpty with columns := listColumns storeBad "b1" }, [loadingErrorToast])
    ∧ decodeTagsField none = some []
    ∧ decodeTagsField (some "") = some [] :=
  @C4_decode_failure ⟨true, true, true, true⟩ storeBad "b1" cacheEmpty rfl rfl rfl
    (by decide)

/-- C5: if any of the three reconciliation reads fails, the previous
cache is retained in full — none of the three collections is touched —
and exactly the destructive "Loading Error" notification is surfaced. -/
theorem C5_read_failure {o : Oracle} {store : Store} {boardId : String} {cache : Cache}
    (h : (o.colsOk && o.tasksOk && o.subsOk) = false) :
    loadBoardData o store boardId cache = (cache, [loadingErrorToast])
    ∧ loadingErrorToast.destructive = true :=
  ⟨loadBoardData_read_fail h, rfl⟩

/-- Witness for C5: a failing columns read leaves the concrete cache
untouched and surfaces the error toast. -/
theorem C5_witness :
    loadBoardData ⟨true, false, true, true⟩ storeW "b1" (cacheW "col_todo")
      = (cacheW "col_todo", [loadingErrorToast])
    ∧ loadingErrorToast.destructive = true :=
  @C5_read_failure ⟨true, false, true, true⟩ storeW "b1" (cacheW "col_todo") (by decide)

/-- C6: append-to-end positions — `createTask` assigns the new task a
position equal to the current count of cached tasks in the target
column, and `addSubtask` assigns the new subtask a position equal to the
count of the task's existing subtasks (the drawer's task-filtered
list). -/
theorem C6_append_positions {u : User} {b : Board} {cache : Cache}
    {title tc tid stitle sid newId : String}
    (htc : ¬ tc = "") (hst : ¬ jsTrim stitle = "") :
    (createTask (some u) (some b) cache title (some tc) newId).map
        (fun w => w.position)
      = some ((cache.tasks.filter (fun t => t.columnId == tc)).length)
    ∧ (addSubtask (drawerSubtasksFor cache tid) tid stitle sid).map
        (fun w => w.position)
      = some ((cache.subtasks.filter (fun st => st.taskId == tid)).length) := by
  constructor
  · simp [createTask, jsOrString, htc]
  · simp [addSubtask, drawerSubtasksFor, hst]

/-- Witness for C6, the design document's scenario: creating subtask
"Write tests" under `t1`, which has 2 existing subtasks at positions 0
and 1, yields position 2; creating a task in `col_todo`, which holds one
cached task, yields position 1. -/
theorem C6_witness :
    (createTask (some uW) (some bW) cacheC6 "New task" (some "col_todo") "task_2").map
        (fun w => w.position) = some 1
    ∧ (addSubtask (drawerSubtasksFor cacheC6 "t1") "t1" "Write tests" "subtask_3").map
        (fun w => w.position) = some 2 := by
  have h := @C6_append_positions uW bW cacheC6 "New task" "col_todo" "t1" "Write tests"
    "subtask_3" "task_2" (by decide) (by decide)
  exact ⟨h.1.trans (by decide), h.2.trans (by decide)⟩

/-- C7: tag round-trip — encoding any tag list to the stored string form
and decoding it back through the read path yields the same list, and an
absent or empty encoding decodes to the empty set. -/
theorem C7_tag_roundtrip (tags : List String) :
    decodeTagsField (some (encodeTags tags)) = some tags
    ∧ decodeTagsField none = some []
    ∧ decodeTagsField (some "") = some [] := by
  refine ⟨?_, rfl, rfl⟩
  show (if encodeTags tags = "" then some [] else parseJsonStringArray (encodeTags tags))
    = some tags
  rw [if_neg (encodeTags_ne_empty tags)]
  exact parse_encodeTags tags

/-- C8 counterexample: loading board `b1` pulls in `s2`, a subtask whose
task `t2` belongs to board `b2` (no `b1` task owns it) — the subtasks
read returns every subtask in the store, refuting "each of the three
read queries is restricted to the given board's data". -/
theorem C8_counterexample :
    subB2 ∈ (loadBoardData ⟨true, true, true, true⟩ storeC8 "b1" cacheEmpty).1.subtasks
    ∧ (storeC8.tasks.filter (fun t => t.boardId == "b1" && t.id == subB2.taskId)) = []
    ∧ subB2.taskId = "t2"
    ∧ (storeC8.tasks.filter (fun t => t.id == "t2")).map
        (fun t => t.boardId) = ["b2"] := by
  decide

/-- C8 amended: the columns and tasks reads are restricted to the given
board, but the subtasks read is unrestricted — it returns every subtask
in the store (up to the `position` ordering) regardless of board. -/
theorem C8_query_scope (store : Store) (boardId : String) :
    ((listColumns store boardId).all (fun c => c.boardId == boardId)) = true
    ∧ ((listTasks store boardId).all (fun t => t.boardId == boardId)) = true
    ∧ List.Perm (listSubtasks store) store.subtasks := by
  refine ⟨?_, ?_, sortByPos_perm _ _⟩
  · rw [List.all_eq_true]
    intro c hc
    unfold listColumns at hc
    have h2 := (sortByPos_perm Column.position _).mem_iff.mp hc
    exact (List.mem_filter.mp h2).2
  · rw [List.all_eq_true]
    intro u hu
    unfold listTasks at hu
    have h2 := (sortByPos_perm StoredTask.position _).mem_iff.mp hu
    exact (List.mem_filter.mp h2).2

/-- C10: subtask completion uses a numeric encoding at the public
interface — `toggleSubtask` persists the integer 1/0, `addSubtask`
persists the boolean `false`, and every reader (card badge, drawer count
and checkbox, list progress) counts a subtask as completed exactly when
`Number(completed) > 0`, under either encoding. -/
theorem C10_completed_encoding (sid tid title nid : String) (b : Bool) (st : Subtask)
    (l : List Subtask) :
    (toggleSubtask sid b).completed = CompletedValue.num (if b then 1 else 0)
    ∧ ((addSubtask l tid title nid).map (fun w => w.completed)
        = if jsTrim title = "" then none else some (CompletedValue.bool false))
    ∧ subtaskCheckboxChecked { st with completed := (toggleSubtask sid b).completed } = b
    ∧ subtaskCheckboxChecked { st with completed := CompletedValue.bool false } = false
    ∧ completedSubtasksCount l
        = (l.filter (fun s => match s.completed with
            | CompletedValue.num n => decide (n > 0)
            | CompletedValue.bool bb => bb)).length
    ∧ drawerCompletedCount l = completedSubtasksCount l
    ∧ (getSubtaskProgress l tid).1
        = completedSubtasksCount (l.filter (fun s => s.taskId == tid)) := by
  refine ⟨rfl, ?_, ?_, rfl, ?_, rfl, rfl⟩
  · by_cases h : jsTrim title = "" <;> simp [addSubtask, h]
  · cases b <;> rfl
  · unfold completedSubtasksCount
    congr 1
    apply List.filter_congr
    intro s _
    cases hcv : s.completed with
    | bool bb => cases bb <;> simp [jsNumber]
    | num n => simp [jsNumber]

end Kanban
